import Mathlib

/-!
Verification development for the `jamsocket` dev-server orchestrator
(`src/commands/service/create.ts`, class `DevServer`).

The TypeScript class is shallowly embedded as pure Lean functions over an
explicit `DevServerState`.  The JavaScript `Map<string, Backend>`
(`devBackends`) is modelled as an insertion-ordered association list with
the exact `get`/`set`/`delete` behaviour of a JS `Map`.  Remote RPCs
(`push`, `spawn`, `terminate`) are recorded in a ghost ledger
(`remoteCalls`); the remote spawn *response* is an input to `spawnBackend`
(the remote side is an external collaborator).  A status/log stream pair
opened by `streamStatusAndLogs` is recorded in a `streams` ledger; the
entry's `closeStreams` field holds the index of the pair it owns, and
invoking the closer marks that pair closed (per the spec, the closer
deterministically closes both streams and fires their closed signals; the
stream client itself is not part of the sources).  TypeScript `throw` is
`Except.error`; an `Error` *returned* as a value (the blocked-spawn paths)
is `SpawnOutcome.blocked`.
-/

/-- Field `spawned`/`name` of the remote spawn response (`SpawnResult` in
`src/api`): `name` is the backend name, `spawned` whether a brand-new
instance was created. -/
structure SpawnResult where
  name : String
  spawned : Bool
  deriving Repr, DecidableEq

/-- The four footer colors of `BACKEND_LOG_COLORS` (create.ts line 48). -/
inductive Color
  | cyan
  | magenta
  | yellow
  | blue
  deriving Repr, DecidableEq

/-- One Registry record (type `Backend`, create.ts lines 37-46).
`closeStreams` holds the index (into the session's stream ledger) of the
status/log stream pair this entry owns, or `none` when no closer is
installed (the source holds a closure; the index identifies which pair the
closure closes). -/
structure Backend where
  spawnResult : SpawnResult
  imageId : String
  spawnTime : Nat
  lastStatus : Option String
  lock : Option String
  isStreaming : Bool
  color : Color
  closeStreams : Option Nat
  deriving Repr, DecidableEq

/-- One status/log stream pair opened by `streamStatusAndLogs`; `closed`
becomes true when the pair's closer is invoked or both streams end. -/
structure StreamPair where
  backendName : String
  closed : Bool
  deriving Repr, DecidableEq

/-- Ghost record of a remote control-plane call issued by the session. -/
inductive RemoteCall
  | push (imageId : String)
  | spawn (service : String)
  | terminate (name : String)
  deriving Repr, DecidableEq

/-- `BACKEND_LOG_COLORS` (create.ts line 48). -/
def BACKEND_LOG_COLORS : List Color := [.cyan, .magenta, .yellow, .blue]

/-- `BACKEND_LOG_COLORS[n % BACKEND_LOG_COLORS.length]` (create.ts
line 352); the default is unreachable since `n % 4 < 4`. -/
def colorAt (n : Nat) : Color :=
  (BACKEND_LOG_COLORS.get? (n % BACKEND_LOG_COLORS.length)).getD Color.cyan

/-- `Map.get`: first entry with the key (keys are unique in a JS `Map`). -/
def mapGet {α : Type} : List (String × α) → String → Option α
  | [], _ => none
  | p :: m, k => if p.1 = k then some p.2 else mapGet m k

/-- `Map.set`: replace the entry with the key in place, or append. -/
def mapSet {α : Type} : List (String × α) → String → α → List (String × α)
  | [], k, v => [(k, v)]
  | p :: m, k, v => if p.1 = k then (k, v) :: m else p :: mapSet m k v

/-- `Map.delete`: remove the entry with the key (no-op when absent). -/
def mapDelete {α : Type} : List (String × α) → String → List (String × α)
  | [], _ => []
  | p :: m, k => if p.1 = k then m else p :: mapDelete m k

/-- Mutable state of a `DevServer` instance (create.ts lines 57-64) plus
the `opts` fields the claims need and the two ghost ledgers. -/
structure DevServerState where
  account : String
  service : String
  currentImageId : Option String
  devBackends : List (String × Backend)
  totalBackendsSpawned : Nat
  streams : List StreamPair
  remoteCalls : List RemoteCall
  deriving Repr, DecidableEq

/-- The non-terminal status values `['Loading', 'Starting', 'Ready']`
(create.ts line 247). -/
def nonTerminalStatuses : List String := ["Loading", "Starting", "Ready"]

/-- Outcome of `spawnBackend` when it does not throw: the `SpawnResult`
returned to the proxy, or an `Error` value returned in the blocked-spawn
paths (create.ts lines 349 and 367). -/
inductive SpawnOutcome
  | success (result : SpawnResult)
  | blocked (message : String)
  deriving Repr, DecidableEq

deriving instance DecidableEq for Except

/-- Error value returned at create.ts line 349. -/
def staleImageMsg : String :=
  "dev-server spawn proxy: Spawn with lock returned a running backend with an outdated version of the session backend code. Blocking spawn."

/-- Error value returned at create.ts line 367. -/
def untrackedMsg : String :=
  "dev-server spawn proxy: Spawn with lock returned a running backend that was not originally spawned by this dev server. This may be dangerous. Blocking spawn."

/-- The synchronous prefix of `streamStatusAndLogs` (create.ts lines
237-261): mark the entry `isStreaming`, open a fresh status/log stream
pair, and install the closer owning that pair.  The source throws when the
name is absent; both call sites guarantee presence, and the absent case is
modelled as a no-op here (it is unreachable from `spawnBackend`). -/
def streamStatusAndLogsAttach (st : DevServerState) (name : String) : DevServerState :=
  match mapGet st.devBackends name with
  | none => st
  | some b =>
    { st with
      devBackends := mapSet st.devBackends name
        { b with isStreaming := true, closeStreams := some st.streams.length },
      streams := st.streams ++ [⟨name, false⟩] }

/-- The tail of `spawnBackend` (create.ts lines 370-380): re-read the
entry (the source uses a non-null assertion, modelled as a thrown error if
violated) and attach streaming when it is not already streaming. -/
def finishSpawn (st : DevServerState) (result : SpawnResult) :
    Except String (DevServerState × SpawnOutcome) :=
  match mapGet st.devBackends result.name with
  | none => .error "devBackends.get(result.name) was undefined after spawn bookkeeping"
  | some backend =>
    if backend.isStreaming then .ok (st, .success result)
    else .ok (streamStatusAndLogsAttach st result.name, .success result)

/-- `DevServer.spawnBackend` (create.ts lines 324-381).  The remote spawn
response `result` is an input; `bodyLock` is `body.lock`, `now` the spawn
timestamp.  `Except.error` models a `throw`. -/
def spawnBackend (st : DevServerState) (result : SpawnResult)
    (bodyLock : Option String) (now : Nat) :
    Except String (DevServerState × SpawnOutcome) :=
  match st.currentImageId with
  | none => .error "spawnBackend called before currentImageId was set. This is a bug."
  | some imageId =>
    let st := { st with remoteCalls := st.remoteCalls ++ [RemoteCall.spawn st.service] }
    match mapGet st.devBackends result.name with
    | some backend =>
      if result.spawned then
        .error "Spawned backend already exists in devBackends but spawned=true in spawn response. Some bug has occurred."
      else if backend.imageId ≠ imageId then
        .ok (st, .blocked staleImageMsg)
      else
        finishSpawn st result
    | none =>
      if result.spawned then
        let st :=
          { st with
            devBackends := mapSet st.devBackends result.name
              { spawnResult := result
                imageId := imageId
                spawnTime := now
                lastStatus := none
                lock := bodyLock
                isStreaming := false
                color := colorAt st.totalBackendsSpawned
                closeStreams := none }
            totalBackendsSpawned := st.totalBackendsSpawned + 1 }
        finishSpawn st result
      else
        .ok (st, .blocked untrackedMsg)

/-- `DevServer.terminateBackends` (create.ts lines 154-160): one remote
terminate call per name; the Registry is deliberately left untouched. -/
def terminateBackends (st : DevServerState) (backends : List String) : DevServerState :=
  { st with remoteCalls := st.remoteCalls ++ backends.map RemoteCall.terminate }

/-- `DevServer.rebuild` (create.ts lines 134-142) with the new image id
produced by `buildSessionBackend` as an input (the builder is external);
the `push` call of `buildSessionBackend` is recorded. -/
def rebuild (st : DevServerState) (newImageId : String) : DevServerState :=
  let st1 := { st with
    currentImageId := some newImageId
    remoteCalls := st.remoteCalls ++ [RemoteCall.push newImageId] }
  let outdatedBackends : List String :=
    (st1.devBackends.filter fun p => p.2.imageId != newImageId).map
      fun p => p.2.spawnResult.name
  if outdatedBackends.length > 0 then terminateBackends st1 outdatedBackends else st1

/-- `true` exactly when the `Except` is a thrown error. -/
def isThrow {ε α : Type} : Except ε α → Bool
  | .error _ => true
  | .ok _ => false

/-- Mark the stream pair at index `i` closed (the effect of invoking an
entry's `closeStreams` closure, or of both streams ending). -/
def closePair : List StreamPair → Nat → List StreamPair
  | [], _ => []
  | p :: rest, 0 => { p with closed := true } :: rest
  | p :: rest, Nat.succ n => p :: closePair rest n

/-- The status-stream callback of `streamStatusAndLogs` acting on the
Registry (create.ts lines 243-253), for the ordinary interleaving in which
the captured `backend` object is the entry currently in the Registry:
record `lastStatus`; on a status outside `nonTerminalStatuses`, invoke the
entry's closer (when installed) and delete the entry.  A status arriving
for a name no longer in the Registry has no Registry effect (the captured
detached object is modelled by `statusCallback` below). -/
def statusEvent (st : DevServerState) (name status : String) : DevServerState :=
  match mapGet st.devBackends name with
  | none => st
  | some b =>
    let b' := { b with lastStatus := some status }
    if nonTerminalStatuses.contains status then
      { st with devBackends := mapSet st.devBackends name b' }
    else
      { st with
        devBackends := mapDelete st.devBackends name
        streams :=
          match b'.closeStreams with
          | some i => closePair st.streams i
          | none => st.streams }

/-- Both closed signals of the entry's stream pair have fired (create.ts
lines 263-266): the pair is closed and the entry, when still present, is
marked `isStreaming := false` (its closer field is left in place, as in
the source). -/
def streamsEnded (st : DevServerState) (name : String) : DevServerState :=
  match mapGet st.devBackends name with
  | none => st
  | some b =>
    { st with
      devBackends := mapSet st.devBackends name { b with isStreaming := false }
      streams :=
        match b.closeStreams with
        | some i => closePair st.streams i
        | none => st.streams }

/-- The cleanup loop of `DevServer.start` (create.ts lines 110-114): for
every remaining entry invoke its closer when installed, and delete every
entry. -/
def closeAll (m : List (String × Backend)) (s : List StreamPair) : List StreamPair :=
  m.foldl
    (fun acc p =>
      match p.2.closeStreams with
      | some i => closePair acc i
      | none => acc)
    s

/-- `DevServer.start` shutdown sequence after `timeToExit` resolves
(create.ts lines 105-119): close the proxy server, terminate all dev
backends, then close any streams that are still open and empty the
Registry; input-handling resources are released after this. -/
def shutdown (st : DevServerState) : DevServerState :=
  let backendNames : List String := st.devBackends.map fun p => p.2.spawnResult.name
  let st1 := if backendNames.length > 0 then terminateBackends st backendNames else st
  { st1 with
    devBackends := []
    streams := closeAll st1.devBackends st1.streams }

/-- State right after `DevServer.start` built and pushed the initial image
(create.ts lines 70-73): empty Registry, `currentImageId` set. -/
def initState (account service img : String) : DevServerState :=
  { account := account
    service := service
    currentImageId := some img
    devBackends := []
    totalBackendsSpawned := 0
    streams := []
    remoteCalls := [RemoteCall.push img] }

/-- One asynchronous event of a dev-server session: a remote spawn
response handled by `spawnBackend`, a status or log stream event, both
closed signals of an entry's stream pair firing, an operator/rebuild
terminate, or a rebuild completing with a new image id. -/
inductive Step
  | spawnResp (result : SpawnResult) (bodyLock : Option String) (now : Nat)
  | status (name s : String)
  | logLine (name l : String)
  | ended (name : String)
  | terminate (names : List String)
  | rebuildTo (newImageId : String)
  deriving Repr, DecidableEq

/-- Apply one session event.  A thrown `spawnBackend` (fatal
inconsistency) leaves the Registry and stream ledger unchanged — in the
source both throws happen before any mutation.  A log line only prints. -/
def applyStep (e : Step) (st : DevServerState) : DevServerState :=
  match e with
  | .spawnResp r bodyLock now =>
    match spawnBackend st r bodyLock now with
    | .error _ => st
    | .ok (st', _) => st'
  | .status name s => statusEvent st name s
  | .logLine _ _ => st
  | .ended name => streamsEnded st name
  | .terminate names => terminateBackends st names
  | .rebuildTo newImageId => rebuild st newImageId

/-- The state of a session that started with image `img` and then
processed the given events in order. -/
def runTrace (account service img : String) (steps : List Step) : DevServerState :=
  steps.foldl (fun st e => applyStep e st) (initState account service img)

/-- Every stream pair ever opened in this session has been closed. -/
def allStreamsClosed (st : DevServerState) : Bool :=
  st.streams.all fun p => p.closed

/-- Every Registry entry with `isStreaming = true` has a closer
installed (the §3 Registry invariant). -/
def streamingHasCloser (st : DevServerState) : Bool :=
  st.devBackends.all fun p => !p.2.isStreaming || p.2.closeStreams.isSome

/-- Keys of the association list are unique (a JS `Map` guarantee). -/
def keysNodup {α : Type} : List (String × α) → Prop
  | [] => True
  | p :: m => mapGet m p.1 = none ∧ keysNodup m

theorem mem_mapSet {α : Type} {m : List (String × α)} {k : String} {v : α} :
    ∀ p ∈ mapSet m k v, p = (k, v) ∨ p ∈ m := by
  induction m with
  | nil => intro p hp; simp [mapSet] at hp; simp [hp]
  | cons q m ih =>
    intro p hp
    by_cases hq : q.1 = k
    · simp [mapSet, hq] at hp
      rcases hp with h | h
      · exact Or.inl h
      · exact Or.inr (List.mem_cons_of_mem _ h)
    · simp [mapSet, hq] at hp
      rcases hp with h | h
      · exact Or.inr (by simp [h])
      · rcases ih p h with h' | h'
        · exact Or.inl h'
        · exact Or.inr (List.mem_cons_of_mem _ h')

theorem self_mem_mapSet {α : Type} {m : List (String × α)} {k : String} {v : α} :
    (k, v) ∈ mapSet m k v := by
  induction m with
  | nil => simp [mapSet]
  | cons q m ih =>
    by_cases hq : q.1 = k
    · simp [mapSet, hq]
    · simp [mapSet, hq]
      exact Or.inr ih

theorem mem_mapSet_of_ne {α : Type} {m : List (String × α)} {k : String} {v : α}
    {p : String × α} (hp : p ∈ m) (hne : p.1 ≠ k) : p ∈ mapSet m k v := by
  induction m with
  | nil => simp at hp
  | cons q m ih =>
    by_cases hq : q.1 = k
    · rcases List.mem_cons.mp hp with h | h
      · exact absurd (h ▸ hq) hne
      · simp [mapSet, hq]
        exact Or.inr h
    · rcases List.mem_cons.mp hp with h | h
      · simp [mapSet, hq, h]
      · simp [mapSet, hq]
        exact Or.inr (ih h)

theorem mem_mapDelete {α : Type} {m : List (String × α)} {k : String} :
    ∀ p ∈ mapDelete m k, p ∈ m := by
  induction m with
  | nil => intro p hp; simp [mapDelete] at hp
  | cons q m ih =>
    intro p hp
    by_cases hq : q.1 = k
    · simp [mapDelete, hq] at hp
      exact List.mem_cons_of_mem _ hp
    · simp [mapDelete, hq] at hp
      rcases hp with h | h
      · simp [h]
      · exact List.mem_cons_of_mem _ (ih p h)

theorem mem_mapDelete_of_ne {α : Type} {m : List (String × α)} {k : String}
    {p : String × α} (hp : p ∈ m) (hne : p.1 ≠ k) : p ∈ mapDelete m k := by
  induction m with
  | nil => simp at hp
  | cons q m ih =>
    by_cases hq : q.1 = k
    · rcases List.mem_cons.mp hp with h | h
      · exact absurd (h ▸ hq) hne
      · simp [mapDelete, hq, h]
    · rcases List.mem_cons.mp hp with h | h
      · simp [mapDelete, hq, h]
      · simp [mapDelete, hq]
        exact Or.inr (ih h)

theorem mem_of_mapGet {α : Type} {m : List (String × α)} {k : String} {v : α}
    (h : mapGet m k = some v) : (k, v) ∈ m := by
  induction m with
  | nil => simp [mapGet] at h
  | cons q m ih =>
    by_cases hq : q.1 = k
    · simp [mapGet, hq] at h
      have hqkv : q = (k, v) := by cases q; simp_all
      rw [hqkv]
      exact List.mem_cons_self _ _
    · simp [mapGet, hq] at h
      exact List.mem_cons_of_mem _ (ih h)

theorem mapGet_isSome_of_mem {α : Type} {m : List (String × α)} {p : String × α}
    (hp : p ∈ m) : (mapGet m p.1).isSome = true := by
  induction m with
  | nil => simp at hp
  | cons q m ih =>
    rcases List.mem_cons.mp hp with h | h
    · simp [mapGet, h]
    · by_cases hq : q.1 = p.1
      · simp [mapGet, hq]
      · simp [mapGet, hq]
        exact ih h

theorem mapGet_of_mem {α : Type} {m : List (String × α)} {p : String × α}
    (hnd : keysNodup m) (hp : p ∈ m) : mapGet m p.1 = some p.2 := by
  induction m with
  | nil => simp at hp
  | cons q m ih =>
    rcases List.mem_cons.mp hp with h | h
    · subst h; simp [mapGet]
    · by_cases hq : q.1 = p.1
      · exfalso
        have h1 : mapGet m q.1 = none := hnd.1
        have h2 := mapGet_isSome_of_mem h
        rw [hq] at h1
        rw [h1] at h2
        simp at h2
      · simp [mapGet, hq]
        exact ih hnd.2 h

theorem mapGet_mapSet_self {α : Type} {m : List (String × α)} {k : String} {v : α} :
    mapGet (mapSet m k v) k = some v := by
  induction m with
  | nil => simp [mapSet, mapGet]
  | cons q m ih =>
    by_cases hq : q.1 = k
    · simp [mapSet, hq, mapGet]
    · simp [mapSet, hq, mapGet, ih]

theorem mapGet_mapSet_ne {α : Type} {m : List (String × α)} {k k' : String} {v : α}
    (h : k' ≠ k) : mapGet (mapSet m k v) k' = mapGet m k' := by
  induction m with
  | nil => simp [mapSet, mapGet, Ne.symm h]
  | cons q m ih =>
    by_cases hq : q.1 = k
    · simp [mapSet, hq, mapGet, Ne.symm h, h]
    · by_cases hq' : q.1 = k'
      · simp [mapSet, hq, mapGet, hq', h]
      · simp [mapSet, hq, mapGet, hq', ih]

theorem mapGet_mapDelete_none {α : Type} {m : List (String × α)} {k k' : String}
    (h : mapGet m k' = none) : mapGet (mapDelete m k) k' = none := by
  induction m with
  | nil => simp [mapDelete, mapGet]
  | cons q m ih =>
    by_cases hq' : q.1 = k'
    · simp [mapGet, hq'] at h
    · simp [mapGet, hq'] at h
      by_cases hq : q.1 = k
      · simpa [mapDelete, hq]
      · simp [mapDelete, hq, mapGet, hq']
        exact ih h

theorem keysNodup_mapSet {α : Type} {m : List (String × α)} {k : String} {v : α}
    (h : keysNodup m) : keysNodup (mapSet m k v) := by
  induction m with
  | nil => simp [mapSet, keysNodup, mapGet]
  | cons q m ih =>
    by_cases hq : q.1 = k
    · simp only [mapSet, hq, if_pos]
      exact ⟨hq ▸ h.1, h.2⟩
    · simp only [mapSet, hq, if_neg, not_false_iff]
      refine ⟨?_, ih h.2⟩
      rw [mapGet_mapSet_ne hq]
      exact h.1

theorem keysNodup_mapDelete {α : Type} {m : List (String × α)} {k : String}
    (h : keysNodup m) : keysNodup (mapDelete m k) := by
  induction m with
  | nil => simp [mapDelete, keysNodup]
  | cons q m ih =>
    by_cases hq : q.1 = k
    · simpa [mapDelete, hq] using h.2
    · simp only [mapDelete, hq, if_neg, not_false_iff]
      exact ⟨mapGet_mapDelete_none h.1, ih h.2⟩

/-- The stream pair at index `i` (when it exists) is closed. -/
def pairClosedAt (s : List StreamPair) (i : Nat) : Prop :=
  ∀ pair, s.get? i = some pair → pair.closed = true

theorem closePair_length {s : List StreamPair} {i : Nat} :
    (closePair s i).length = s.length := by
  induction s generalizing i with
  | nil => simp [closePair]
  | cons p rest ih =>
    cases i with
    | zero => simp [closePair]
    | succ n => simp [closePair, ih]

theorem closePair_get?_ne {s : List StreamPair} {i j : Nat} (h : j ≠ i) :
    (closePair s i).get? j = s.get? j := by
  induction s generalizing i j with
  | nil => simp [closePair]
  | cons p rest ih =>
    cases i with
    | zero =>
      cases j with
      | zero => exact absurd rfl h
      | succ m => simp [closePair]
    | succ n =>
      cases j with
      | zero => simp [closePair]
      | succ m =>
        simp only [closePair, List.get?_cons_succ]
        exact ih fun hh => h (by simp [hh])

theorem closePair_get?_self {s : List StreamPair} {i : Nat} :
    (closePair s i).get? i = (s.get? i).map fun p => { p with closed := true } := by
  induction s generalizing i with
  | nil => simp [closePair]
  | cons p rest ih =>
    cases i with
    | zero => simp [closePair]
    | succ n => simpa [closePair] using ih

theorem pairClosedAt_closePair_self {s : List StreamPair} {i : Nat} :
    pairClosedAt (closePair s i) i := by
  intro pair hpair
  rw [closePair_get?_self] at hpair
  cases hs : s.get? i with
  | none => rw [hs] at hpair; simp at hpair
  | some q =>
    rw [hs] at hpair
    simp at hpair
    rw [← hpair]

theorem pairClosedAt_closePair_mono {s : List StreamPair} {i j : Nat}
    (h : pairClosedAt s j) : pairClosedAt (closePair s i) j := by
  by_cases hij : j = i
  · subst hij; exact pairClosedAt_closePair_self
  · intro pair hpair
    rw [closePair_get?_ne hij] at hpair
    exact h pair hpair

theorem pairClosedAt_append {s : List StreamPair} {q : StreamPair} {j : Nat}
    (h : pairClosedAt s j) (hj : j < s.length) : pairClosedAt (s ++ [q]) j := by
  intro pair hpair
  rw [List.get?_append hj] at hpair
  exact h pair hpair

theorem closeAll_length {m : List (String × Backend)} {s : List StreamPair} :
    (closeAll m s).length = s.length := by
  induction m generalizing s with
  | nil => simp [closeAll]
  | cons p rest ih =>
    simp only [closeAll, List.foldl_cons]
    cases hc : p.2.closeStreams with
    | none => simpa [closeAll, hc] using ih
    | some i =>
      simp only [hc]
      rw [show (List.foldl _ (closePair s i) rest) = closeAll rest (closePair s i) from rfl]
      rw [ih, closePair_length]

theorem pairClosedAt_closeAll_mono {m : List (String × Backend)} {s : List StreamPair}
    {j : Nat} (h : pairClosedAt s j) : pairClosedAt (closeAll m s) j := by
  induction m generalizing s with
  | nil => simpa [closeAll]
  | cons p rest ih =>
    simp only [closeAll, List.foldl_cons]
    cases hc : p.2.closeStreams with
    | none => exact ih h
    | some i => exact ih (pairClosedAt_closePair_mono h)

theorem pairClosedAt_closeAll_of_mem {m : List (String × Backend)} {s : List StreamPair}
    {p : String × Backend} {i : Nat} (hp : p ∈ m) (hc : p.2.closeStreams = some i) :
    pairClosedAt (closeAll m s) i := by
  induction m generalizing s with
  | nil => simp at hp
  | cons q rest ih =>
    rcases List.mem_cons.mp hp with h | h
    · subst h
      simp only [closeAll, List.foldl_cons, hc]
      exact pairClosedAt_closeAll_mono pairClosedAt_closePair_self
    · simp only [closeAll, List.foldl_cons]
      cases hq : q.2.closeStreams with
      | none => exact ih h
      | some j => exact ih h

/-- The Registry/stream-ledger invariant of a session (§3 of the spec plus
the bookkeeping facts needed to push it through every operation):
keys are unique; a streaming entry has a closer; a closer points into the
ledger; a non-streaming entry's closer points at a closed pair; and every
open pair is owned by some entry's closer. -/
def InvOn (m : List (String × Backend)) (s : List StreamPair) : Prop :=
  keysNodup m
  ∧ (∀ p ∈ m, p.2.isStreaming = true → p.2.closeStreams.isSome = true)
  ∧ (∀ p ∈ m, ∀ i, p.2.closeStreams = some i → i < s.length)
  ∧ (∀ p ∈ m, p.2.isStreaming = false → ∀ i, p.2.closeStreams = some i → pairClosedAt s i)
  ∧ (∀ j pair, s.get? j = some pair → pair.closed = false →
      ∃ p, p ∈ m ∧ p.2.closeStreams = some j)

/-- The session invariant, as a predicate on the full state. -/
def SessionInv (st : DevServerState) : Prop := InvOn st.devBackends st.streams

theorem invOn_attach {m : List (String × Backend)} {s : List StreamPair}
    {name : String} {b : Backend} (h : InvOn m s) (hb : mapGet m name = some b)
    (hstr : b.isStreaming = false) :
    InvOn (mapSet m name { b with isStreaming := true, closeStreams := some s.length })
      (s ++ [⟨name, false⟩]) := by
  obtain ⟨hnd, h1, h2, h3, h4⟩ := h
  refine ⟨keysNodup_mapSet hnd, ?_, ?_, ?_, ?_⟩
  · intro p hp hps
    rcases mem_mapSet p hp with rfl | hpm
    · simp
    · exact h1 p hpm hps
  · intro p hp i hi
    rcases mem_mapSet p hp with rfl | hpm
    · simp at hi
      simp [← hi]
    · have := h2 p hpm i hi
      simp only [List.length_append, List.length_cons, List.length_nil]
      omega
  · intro p hp hps i hi
    rcases mem_mapSet p hp with rfl | hpm
    · simp at hps
    · exact pairClosedAt_append (h3 p hpm hps i hi) (h2 p hpm i hi)
  · intro j pair hj hcl
    by_cases hlt : j < s.length
    · rw [List.get?_append hlt] at hj
      obtain ⟨p, hpm, hpc⟩ := h4 j pair hj hcl
      by_cases hpk : p.1 = name
      · exfalso
        have hget : mapGet m p.1 = some p.2 := mapGet_of_mem hnd hpm
        rw [hpk, hb] at hget
        have hpb : p.2 = b := by injection hget with hh; exact hh.symm
        have hclosed : pairClosedAt s j :=
          h3 p hpm (hpb ▸ hstr) j hpc
        have := hclosed pair hj
        rw [this] at hcl
        cases hcl
      · exact ⟨p, mem_mapSet_of_ne hpm hpk, hpc⟩
    · have hjlen : j = s.length := by
        obtain ⟨hlt', _⟩ := List.get?_eq_some.mp hj
        simp only [List.length_append, List.length_cons, List.length_nil] at hlt'
        omega
      subst hjlen
      exact ⟨(name, { b with isStreaming := true, closeStreams := some s.length }),
        self_mem_mapSet, rfl⟩

theorem invOn_newEntry {m : List (String × Backend)} {s : List StreamPair}
    {name : String} {nb : Backend} (h : InvOn m s) (habs : mapGet m name = none)
    (hnew1 : nb.isStreaming = false) (hnew2 : nb.closeStreams = none) :
    InvOn (mapSet m name nb) s := by
  obtain ⟨hnd, h1, h2, h3, h4⟩ := h
  refine ⟨keysNodup_mapSet hnd, ?_, ?_, ?_, ?_⟩
  · intro p hp hps
    rcases mem_mapSet p hp with rfl | hpm
    · rw [hnew1] at hps; cases hps
    · exact h1 p hpm hps
  · intro p hp i hi
    rcases mem_mapSet p hp with rfl | hpm
    · rw [hnew2] at hi; cases hi
    · exact h2 p hpm i hi
  · intro p hp hps i hi
    rcases mem_mapSet p hp with rfl | hpm
    · rw [hnew2] at hi; cases hi
    · exact h3 p hpm hps i hi
  · intro j pair hj hcl
    obtain ⟨p, hpm, hpc⟩ := h4 j pair hj hcl
    have hpk : p.1 ≠ name := by
      intro hh
      have hsome := mapGet_isSome_of_mem hpm
      rw [hh, habs] at hsome
      cases hsome
    exact ⟨p, mem_mapSet_of_ne hpm hpk, hpc⟩

theorem invOn_setLastStatus {m : List (String × Backend)} {s : List StreamPair}
    {name : String} {b : Backend} {v : Option String} (h : InvOn m s)
    (hb : mapGet m name = some b) :
    InvOn (mapSet m name { b with lastStatus := v }) s := by
  obtain ⟨hnd, h1, h2, h3, h4⟩ := h
  have hbm : (name, b) ∈ m := mem_of_mapGet hb
  refine ⟨keysNodup_mapSet hnd, ?_, ?_, ?_, ?_⟩
  · intro p hp hps
    rcases mem_mapSet p hp with rfl | hpm
    · exact h1 (name, b) hbm hps
    · exact h1 p hpm hps
  · intro p hp i hi
    rcases mem_mapSet p hp with rfl | hpm
    · exact h2 (name, b) hbm i hi
    · exact h2 p hpm i hi
  · intro p hp hps i hi
    rcases mem_mapSet p hp with rfl | hpm
    · exact h3 (name, b) hbm hps i hi
    · exact h3 p hpm hps i hi
  · intro j pair hj hcl
    obtain ⟨p, hpm, hpc⟩ := h4 j pair hj hcl
    by_cases hpk : p.1 = name
    · have hget : mapGet m p.1 = some p.2 := mapGet_of_mem hnd hpm
      rw [hpk, hb] at hget
      have hpb : p.2 = b := by injection hget with hh; exact hh.symm
      refine ⟨(name, { b with lastStatus := v }), self_mem_mapSet, ?_⟩
      simpa using hpb ▸ hpc
    · exact ⟨p, mem_mapSet_of_ne hpm hpk, hpc⟩

theorem invOn_delete_close {m : List (String × Backend)} {s : List StreamPair}
    {name : String} {b : Backend} (h : InvOn m s) (hb : mapGet m name = some b) :
    InvOn (mapDelete m name)
      (match b.closeStreams with | some i => closePair s i | none => s) := by
  obtain ⟨hnd, h1, h2, h3, h4⟩ := h
  cases hc : b.closeStreams with
  | none =>
    refine ⟨keysNodup_mapDelete hnd, ?_, ?_, ?_, ?_⟩
    · intro p hp hps
      exact h1 p (mem_mapDelete p hp) hps
    · intro p hp i hi
      exact h2 p (mem_mapDelete p hp) i hi
    · intro p hp hps i hi
      exact h3 p (mem_mapDelete p hp) hps i hi
    · intro j pair hj hcl
      obtain ⟨p, hpm, hpc⟩ := h4 j pair hj hcl
      have hpk : p.1 ≠ name := by
        intro hh
        have hget : mapGet m p.1 = some p.2 := mapGet_of_mem hnd hpm
        rw [hh, hb] at hget
        have hpb : p.2 = b := by injection hget with hh2; exact hh2.symm
        rw [hpb, hc] at hpc
        cases hpc
      exact ⟨p, mem_mapDelete_of_ne hpm hpk, hpc⟩
  | some i =>
    refine ⟨keysNodup_mapDelete hnd, ?_, ?_, ?_, ?_⟩
    · intro p hp hps
      exact h1 p (mem_mapDelete p hp) hps
    · intro p hp i' hi
      rw [closePair_length]
      exact h2 p (mem_mapDelete p hp) i' hi
    · intro p hp hps i' hi
      exact pairClosedAt_closePair_mono (h3 p (mem_mapDelete p hp) hps i' hi)
    · intro j pair hj hcl
      by_cases hij : j = i
      · exfalso
        subst hij
        have := pairClosedAt_closePair_self (s := s) (i := j) pair hj
        rw [this] at hcl
        cases hcl
      · rw [closePair_get?_ne hij] at hj
        obtain ⟨p, hpm, hpc⟩ := h4 j pair hj hcl
        have hpk : p.1 ≠ name := by
          intro hh
          have hget : mapGet m p.1 = some p.2 := mapGet_of_mem hnd hpm
          rw [hh, hb] at hget
          have hpb : p.2 = b := by injection hget with hh2; exact hh2.symm
          rw [hpb, hc] at hpc
          have hji : j = i := by injection hpc with hv; exact hv.symm
          exact hij hji
        exact ⟨p, mem_mapDelete_of_ne hpm hpk, hpc⟩

theorem invOn_ended {m : List (String × Backend)} {s : List StreamPair}
    {name : String} {b : Backend} (h : InvOn m s) (hb : mapGet m name = some b) :
    InvOn (mapSet m name { b with isStreaming := false })
      (match b.closeStreams with | some i => closePair s i | none => s) := by
  obtain ⟨hnd, h1, h2, h3, h4⟩ := h
  have hbm : (name, b) ∈ m := mem_of_mapGet hb
  cases hc : b.closeStreams with
  | none =>
    refine ⟨keysNodup_mapSet hnd, ?_, ?_, ?_, ?_⟩
    · intro p hp hps
      rcases mem_mapSet p hp with rfl | hpm
      · cases hps
      · exact h1 p hpm hps
    · intro p hp i hi
      rcases mem_mapSet p hp with rfl | hpm
      · simp only at hi
        cases hi
      · exact h2 p hpm i hi
    · intro p hp hps i hi
      rcases mem_mapSet p hp with rfl | hpm
      · simp only at hi
        cases hi
      · exact h3 p hpm hps i hi
    · intro j pair hj hcl
      obtain ⟨p, hpm, hpc⟩ := h4 j pair hj hcl
      by_cases hpk : p.1 = name
      · exfalso
        have hget : mapGet m p.1 = some p.2 := mapGet_of_mem hnd hpm
        rw [hpk, hb] at hget
        have hpb : p.2 = b := by injection hget with hh2; exact hh2.symm
        rw [hpb, hc] at hpc
        cases hpc
      · exact ⟨p, mem_mapSet_of_ne hpm hpk, hpc⟩
  | some i =>
    refine ⟨keysNodup_mapSet hnd, ?_, ?_, ?_, ?_⟩
    · intro p hp hps
      rcases mem_mapSet p hp with rfl | hpm
      · cases hps
      · exact h1 p hpm hps
    · intro p hp i' hi
      rw [closePair_length]
      rcases mem_mapSet p hp with rfl | hpm
      · simp only at hi
        have hii : i = i' := by injection hi
        subst hii
        exact h2 (name, b) hbm i hc
      · exact h2 p hpm i' hi
    · intro p hp hps i' hi
      rcases mem_mapSet p hp with rfl | hpm
      · simp only at hi
        have hii : i = i' := by injection hi
        subst hii
        exact pairClosedAt_closePair_self
      · exact pairClosedAt_closePair_mono (h3 p hpm hps i' hi)
    · intro j pair hj hcl
      by_cases hij : j = i
      · exfalso
        subst hij
        have := pairClosedAt_closePair_self (s := s) (i := j) pair hj
        rw [this] at hcl
        cases hcl
      · rw [closePair_get?_ne hij] at hj
        obtain ⟨p, hpm, hpc⟩ := h4 j pair hj hcl
        by_cases hpk : p.1 = name
        · exfalso
          have hget : mapGet m p.1 = some p.2 := mapGet_of_mem hnd hpm
          rw [hpk, hb] at hget
          have hpb : p.2 = b := by injection hget with hh2; exact hh2.symm
          rw [hpb, hc] at hpc
          have hji : j = i := by injection hpc with hv; exact hv.symm
          exact hij hji
        · exact ⟨p, mem_mapSet_of_ne hpm hpk, hpc⟩

theorem inv_statusEvent {st : DevServerState} {name status : String}
    (h : SessionInv st) : SessionInv (statusEvent st name status) := by
  unfold SessionInv statusEvent
  cases hb : mapGet st.devBackends name with
  | none => exact h
  | some b =>
    by_cases hterm : nonTerminalStatuses.contains status
    · simp only [hterm, if_pos]
      exact invOn_setLastStatus h hb
    · simp only [hterm, if_neg, Bool.false_eq_true, not_false_eq_true]
      exact invOn_delete_close h hb

theorem inv_streamsEnded {st : DevServerState} {name : String}
    (h : SessionInv st) : SessionInv (streamsEnded st name) := by
  unfold SessionInv streamsEnded
  cases hb : mapGet st.devBackends name with
  | none => exact h
  | some b => exact invOn_ended h hb

theorem inv_finishSpawn {st st' : DevServerState} {r : SpawnResult} {out : SpawnOutcome}
    (h : SessionInv st) (heq : finishSpawn st r = .ok (st', out)) : SessionInv st' := by
  unfold finishSpawn at heq
  cases hb : mapGet st.devBackends r.name with
  | none => rw [hb] at heq; cases heq
  | some b =>
    rw [hb] at heq
    by_cases hs : b.isStreaming
    · simp only [hs, if_pos] at heq
      obtain ⟨hst, _⟩ := Prod.mk.injEq .. ▸ (Except.ok.injEq .. ▸ heq)
      exact hst ▸ h
    · simp only [hs, if_neg, Bool.false_eq_true, not_false_eq_true] at heq
      have hst : streamStatusAndLogsAttach st r.name = st' := by
        cases heq; rfl
      rw [← hst]
      unfold SessionInv streamStatusAndLogsAttach
      rw [hb]
      exact invOn_attach h hb (by simpa using hs)

theorem inv_spawnBackend {st st' : DevServerState} {r : SpawnResult}
    {bodyLock : Option String} {now : Nat} {out : SpawnOutcome}
    (h : SessionInv st) (heq : spawnBackend st r bodyLock now = .ok (st', out)) :
    SessionInv st' := by
  unfold spawnBackend at heq
  cases him : st.currentImageId with
  | none => rw [him] at heq; cases heq
  | some imageId =>
    rw [him] at heq
    simp only at heq
    have hc : SessionInv { st with currentImageId := some imageId, remoteCalls := st.remoteCalls ++ [RemoteCall.spawn st.service] } := h
    cases hget : mapGet st.devBackends r.name with
    | some backend =>
      rw [show mapGet ({ st with currentImageId := some imageId, remoteCalls := st.remoteCalls ++ [RemoteCall.spawn st.service] } : DevServerState).devBackends r.name = some backend from hget] at heq
      cases hsp : r.spawned with
      | true => rw [hsp] at heq; simp at heq
      | false =>
        rw [hsp] at heq
        simp only [Bool.false_eq_true, if_neg, not_false_eq_true] at heq
        by_cases him2 : backend.imageId ≠ imageId
        · rw [if_pos him2] at heq
          simp only [Except.ok.injEq, Prod.mk.injEq] at heq
          exact heq.1 ▸ hc
        · rw [if_neg him2] at heq
          exact inv_finishSpawn hc heq
    | none =>
      rw [show mapGet ({ st with currentImageId := some imageId, remoteCalls := st.remoteCalls ++ [RemoteCall.spawn st.service] } : DevServerState).devBackends r.name = none from hget] at heq
      cases hsp : r.spawned with
      | true =>
        rw [hsp] at heq
        simp only [if_pos] at heq
        refine inv_finishSpawn ?_ heq
        exact invOn_newEntry hc hget rfl rfl
      | false =>
        rw [hsp] at heq
        simp only [Bool.false_eq_true, if_neg, not_false_eq_true, Except.ok.injEq,
          Prod.mk.injEq] at heq
        exact heq.1 ▸ hc

theorem inv_terminateBackends {st : DevServerState} {names : List String}
    (h : SessionInv st) : SessionInv (terminateBackends st names) := h

theorem inv_rebuild {st : DevServerState} {newImageId : String}
    (h : SessionInv st) : SessionInv (rebuild st newImageId) := by
  unfold rebuild
  dsimp only
  split
  · exact h
  · exact h

theorem inv_applyStep {st : DevServerState} (e : Step) (h : SessionInv st) :
    SessionInv (applyStep e st) := by
  cases e with
  | spawnResp r bodyLock now =>
    simp only [applyStep]
    cases heq : spawnBackend st r bodyLock now with
    | error _ => exact h
    | ok p =>
      cases p with
      | mk st' out => exact inv_spawnBackend h heq
  | status name s => exact inv_statusEvent h
  | logLine name l => exact h
  | ended name => exact inv_streamsEnded h
  | terminate names => exact inv_terminateBackends h
  | rebuildTo newImageId => exact inv_rebuild h

theorem inv_initState (account service img : String) :
    SessionInv (initState account service img) := by
  refine ⟨trivial, ?_, ?_, ?_, ?_⟩
  · intro p hp; simp [initState] at hp
  · intro p hp; simp [initState] at hp
  · intro p hp; simp [initState] at hp
  · intro j pair hj; simp [initState] at hj

theorem inv_runTrace (account service img : String) (steps : List Step) :
    SessionInv (runTrace account service img steps) := by
  unfold runTrace
  have hgen : ∀ (l : List Step) (st : DevServerState), SessionInv st →
      SessionInv (l.foldl (fun s e => applyStep e s) st) := by
    intro l
    induction l with
    | nil => intro st h; exact h
    | cons e l ih =>
      intro st h
      exact ih _ (inv_applyStep e h)
  exact hgen steps _ (inv_initState account service img)

theorem allClosed_closeAll {m : List (String × Backend)} {s : List StreamPair}
    (h : InvOn m s) : ∀ pair ∈ closeAll m s, pair.closed = true := by
  intro pair hpair
  obtain ⟨j, hj⟩ := List.get?_of_mem hpair
  obtain ⟨hlt, _⟩ := List.get?_eq_some.mp hj
  rw [closeAll_length] at hlt
  cases hs : s.get? j with
  | none =>
    rw [List.get?_eq_none] at hs
    omega
  | some pair0 =>
    by_cases hc : pair0.closed = true
    · have hcl : pairClosedAt s j := by
        intro q hq
        rw [hs] at hq
        injection hq with hq
        rw [← hq]
        exact hc
      exact pairClosedAt_closeAll_mono hcl pair hj
    · obtain ⟨p, hpm, hpc⟩ := h.2.2.2.2 j pair0 hs (by simpa using hc)
      exact pairClosedAt_closeAll_of_mem hpm hpc pair hj

theorem shutdown_clean {st : DevServerState} (h : SessionInv st) :
    (shutdown st).devBackends = [] ∧ allStreamsClosed (shutdown st) = true := by
  have hall := allClosed_closeAll h
  constructor
  · simp only [shutdown]
  · unfold shutdown allStreamsClosed
    dsimp only
    rw [List.all_eq_true]
    split
    · intro pair hp
      exact hall pair hp
    · intro pair hp
      exact hall pair hp

/-- C9: in every state a session can reach — any sequence of spawn
responses, status/log events, stream-end signals, terminates and rebuilds
from a fresh session — every Registry entry with `isStreaming = true` has
a non-null `closeStreams`, and the invariant still holds after full
shutdown. -/
theorem C9_streaming_has_closer (account service img : String) (steps : List Step) :
    streamingHasCloser (runTrace account service img steps) = true
    ∧ streamingHasCloser (shutdown (runTrace account service img steps)) = true := by
  have hinv := inv_runTrace account service img steps
  constructor
  · rw [streamingHasCloser, List.all_eq_true]
    intro p hp
    cases hstr : p.2.isStreaming with
    | false => simp
    | true => simp [hinv.2.1 p hp hstr]
  · have hdb := (shutdown_clean hinv).1
    unfold streamingHasCloser
    rw [hdb]
    rfl

/-- C8: after the Session Driver's full shutdown of any reachable session
state, the Registry is empty and every stream pair that was ever opened
has had its closed signal fire (each pair is closed either by its
terminal-status cleanup, by its streams ending, or by the shutdown loop,
which runs before input-handling resources are released). -/
theorem C8_shutdown_completeness (account service img : String) (steps : List Step) :
    (shutdown (runTrace account service img steps)).devBackends = []
    ∧ allStreamsClosed (shutdown (runTrace account service img steps)) = true :=
  shutdown_clean (inv_runTrace account service img steps)

/-- C1 (amended): if the returned name is already in the Registry and
`spawned = true`, `spawnBackend` throws the fatal-inconsistency error;
but if the name is absent and `spawned = false`, the operation does not
throw — it refuses with an error *result* (the create.ts line 367 path),
leaving the Registry unchanged.  Only the present-with-`spawned = true`
combination raises the fatal error; the claim's "any other combination
throws" fails for the absent-with-`spawned = false` combination. -/
theorem C1_dedup_consistency_amended (st : DevServerState) (r : SpawnResult)
    (bodyLock : Option String) (now : Nat) (img : String)
    (him : st.currentImageId = some img) :
    ((mapGet st.devBackends r.name).isSome = true → r.spawned = true →
      isThrow (spawnBackend st r bodyLock now) = true)
    ∧ (mapGet st.devBackends r.name = none → r.spawned = false →
      spawnBackend st r bodyLock now =
        .ok ({ st with remoteCalls := st.remoteCalls ++ [RemoteCall.spawn st.service] },
          .blocked untrackedMsg)) := by
  constructor
  · intro hsome hsp
    obtain ⟨b, hb⟩ := Option.isSome_iff_exists.mp hsome
    simp [spawnBackend, him, hb, hsp, isThrow]
  · intro habs hsp
    simp [spawnBackend, him, habs, hsp]

/-- C1 counterexample: a spawn response whose name is absent from the
Registry but whose `spawned` flag is false violates the claim's
biconditional, yet `spawnBackend` does not throw — it returns an error
result instead of raising the fatal-inconsistency error. -/
theorem C1_dedup_consistency_cex :
    ¬(({ name := "b", spawned := false } : SpawnResult).spawned = true ↔
        mapGet ({ account := "acct", service := "svc", currentImageId := some "img",
                  devBackends := [], totalBackendsSpawned := 0, streams := [],
                  remoteCalls := [] } : DevServerState).devBackends "b" = none)
    ∧ isThrow (spawnBackend
        { account := "acct", service := "svc", currentImageId := some "img",
          devBackends := [], totalBackendsSpawned := 0, streams := [],
          remoteCalls := [] }
        { name := "b", spawned := false } none 0) = false := by
  constructor
  · decide
  · decide

/-- C1 witness: a concrete present-and-`spawned = true` response makes
`spawnBackend` throw. -/
theorem C1_dedup_consistency_witness :
    isThrow (spawnBackend
      { account := "acct", service := "svc", currentImageId := some "img",
        devBackends := [("b",
          { spawnResult := { name := "b", spawned := true }, imageId := "img",
            spawnTime := 0, lastStatus := none, lock := none, isStreaming := true,
            color := Color.cyan, closeStreams := some 0 })],
        totalBackendsSpawned := 1, streams := [{ backendName := "b", closed := false }],
        remoteCalls := [] }
      { name := "b", spawned := true } none 3) = true :=
  (C1_dedup_consistency_amended _ _ none 3 "img" rfl).1 (by decide) rfl

/-- C2: a spawn response whose name has no Registry entry and whose
`spawned` flag is false is refused: `spawnBackend` returns the
untracked-instance error result, adds no entry (the Registry — and
everything else but the ghost record of the remote spawn call — is
unchanged), and does not return the instance as a success. -/
theorem C2_untracked_instance_refused (st : DevServerState) (r : SpawnResult)
    (bodyLock : Option String) (now : Nat) (img : String)
    (him : st.currentImageId = some img)
    (habs : mapGet st.devBackends r.name = none)
    (hsp : r.spawned = false) :
    spawnBackend st r bodyLock now =
      .ok ({ st with remoteCalls := st.remoteCalls ++ [RemoteCall.spawn st.service] },
        .blocked untrackedMsg) := by
  simp [spawnBackend, him, habs, hsp]

/-- C2 witness at a concrete session state. -/
theorem C2_untracked_instance_refused_witness :
    spawnBackend
      { account := "acct", service := "svc", currentImageId := some "img",
        devBackends := [], totalBackendsSpawned := 0, streams := [], remoteCalls := [] }
      { name := "b", spawned := false } none 2 =
    .ok ({ account := "acct", service := "svc", currentImageId := some "img",
           devBackends := [], totalBackendsSpawned := 0, streams := [],
           remoteCalls := [RemoteCall.spawn "svc"] },
      .blocked untrackedMsg) := by
  have h := C2_untracked_instance_refused
    { account := "acct", service := "svc", currentImageId := some "img",
      devBackends := [], totalBackendsSpawned := 0, streams := [], remoteCalls := [] }
    { name := "b", spawned := false } none 2 "img" rfl (by decide) rfl
  simpa using h

/-- C3: a spawn response reusing a name whose Registry entry has an
`imageId` different from the current image is refused with the
stale-image error result; the stale backend is never returned as a
success and the Registry is unchanged. -/
theorem C3_stale_reuse_refused (st : DevServerState) (r : SpawnResult)
    (bodyLock : Option String) (now : Nat) (img : String) (b : Backend)
    (him : st.currentImageId = some img)
    (hb : mapGet st.devBackends r.name = some b)
    (hsp : r.spawned = false)
    (hne : b.imageId ≠ img) :
    spawnBackend st r bodyLock now =
      .ok ({ st with remoteCalls := st.remoteCalls ++ [RemoteCall.spawn st.service] },
        .blocked staleImageMsg) := by
  simp [spawnBackend, him, hb, hsp, hne]

/-- C3 witness at a concrete session state with a stale entry. -/
theorem C3_stale_reuse_refused_witness :
    spawnBackend
      { account := "acct", service := "svc", currentImageId := some "imgB",
        devBackends := [("b",
          { spawnResult := { name := "b", spawned := true }, imageId := "imgA",
            spawnTime := 0, lastStatus := some "Ready", lock := some "k",
            isStreaming := true, color := Color.cyan, closeStreams := some 0 })],
        totalBackendsSpawned := 1, streams := [{ backendName := "b", closed := false }],
        remoteCalls := [] }
      { name := "b", spawned := false } (some "k") 9 =
    .ok ({ account := "acct", service := "svc", currentImageId := some "imgB",
           devBackends := [("b",
             { spawnResult := { name := "b", spawned := true }, imageId := "imgA",
               spawnTime := 0, lastStatus := some "Ready", lock := some "k",
               isStreaming := true, color := Color.cyan, closeStreams := some 0 })],
           totalBackendsSpawned := 1, streams := [{ backendName := "b", closed := false }],
           remoteCalls := [RemoteCall.spawn "svc"] },
      .blocked staleImageMsg) := by
  have h := C3_stale_reuse_refused
    { account := "acct", service := "svc", currentImageId := some "imgB",
      devBackends := [("b",
        { spawnResult := { name := "b", spawned := true }, imageId := "imgA",
          spawnTime := 0, lastStatus := some "Ready", lock := some "k",
          isStreaming := true, color := Color.cyan, closeStreams := some 0 })],
      totalBackendsSpawned := 1, streams := [{ backendName := "b", closed := false }],
      remoteCalls := [] }
    { name := "b", spawned := false } (some "k") 9 "imgB"
    { spawnResult := { name := "b", spawned := true }, imageId := "imgA",
      spawnTime := 0, lastStatus := some "Ready", lock := some "k",
      isStreaming := true, color := Color.cyan, closeStreams := some 0 }
    rfl (by decide) rfl (by decide)
  simpa using h

/-- C10 (amended): a spawn response reusing a name whose entry matches
the current image is returned as a success; no new entry is added, no
round-robin color slot is consumed (`totalBackendsSpawned` is unchanged),
and the entry's `spawnResult`, `imageId`, `spawnTime`, `lastStatus`,
`lock` and `color` are unchanged.  Streaming is attached exactly when the
entry's `isStreaming` field was false — and attaching *does* modify the
entry: it sets `isStreaming` and installs a fresh `closeStreams`, so the
claim's "existing entry's fields not modified" holds only when
`isStreaming` was already true (then the state is unchanged apart from
the ghost record of the remote spawn call). -/
theorem C10_reuse_success_frame_amended (st : DevServerState) (r : SpawnResult)
    (bodyLock : Option String) (now : Nat) (img : String) (b : Backend)
    (him : st.currentImageId = some img)
    (hb : mapGet st.devBackends r.name = some b)
    (hsp : r.spawned = false)
    (himg : b.imageId = img) :
    (b.isStreaming = true →
      spawnBackend st r bodyLock now =
        .ok ({ st with remoteCalls := st.remoteCalls ++ [RemoteCall.spawn st.service] },
          .success r))
    ∧ (b.isStreaming = false →
      spawnBackend st r bodyLock now =
        .ok ({ st with remoteCalls := st.remoteCalls ++ [RemoteCall.spawn st.service],
                       devBackends := mapSet st.devBackends r.name
                         { b with isStreaming := true, closeStreams := some st.streams.length },
                       streams := st.streams ++ [⟨r.name, false⟩] },
          .success r)) := by
  constructor
  · intro hstr
    simp [spawnBackend, finishSpawn, him, hb, hsp, himg, hstr]
  · intro hstr
    simp [spawnBackend, finishSpawn, streamStatusAndLogsAttach, him, hb, hsp, himg, hstr]

/-- C10 counterexample: reusing a matching entry whose `isStreaming` is
false returns success but *modifies* the entry (streaming is attached:
`isStreaming` becomes true and a fresh closer is installed), refuting
"existing entry's fields not modified". -/
theorem C10_reuse_success_frame_cex :
    spawnBackend
      { account := "acct", service := "svc", currentImageId := some "img",
        devBackends := [("b",
          { spawnResult := { name := "b", spawned := true }, imageId := "img",
            spawnTime := 1, lastStatus := some "Ready", lock := some "k",
            isStreaming := false, color := Color.magenta, closeStreams := some 0 })],
        totalBackendsSpawned := 1, streams := [{ backendName := "b", closed := true }],
        remoteCalls := [] }
      { name := "b", spawned := false } none 5 =
    .ok ({ account := "acct", service := "svc", currentImageId := some "img",
           devBackends := [("b",
             { spawnResult := { name := "b", spawned := true }, imageId := "img",
               spawnTime := 1, lastStatus := some "Ready", lock := some "k",
               isStreaming := true, color := Color.magenta, closeStreams := some 1 })],
           totalBackendsSpawned := 1,
           streams := [{ backendName := "b", closed := true },
                       { backendName := "b", closed := false }],
           remoteCalls := [RemoteCall.spawn "svc"] },
      .success { name := "b", spawned := false })
    ∧ mapGet
        ({ account := "acct", service := "svc", currentImageId := some "img",
           devBackends := [("b",
             { spawnResult := { name := "b", spawned := true }, imageId := "img",
               spawnTime := 1, lastStatus := some "Ready", lock := some "k",
               isStreaming := true, color := Color.magenta, closeStreams := some 1 })],
           totalBackendsSpawned := 1,
           streams := [{ backendName := "b", closed := true },
                       { backendName := "b", closed := false }],
           remoteCalls := [RemoteCall.spawn "svc"] } : DevServerState).devBackends "b" ≠
      some { spawnResult := { name := "b", spawned := true }, imageId := "img",
             spawnTime := 1, lastStatus := some "Ready", lock := some "k",
             isStreaming := false, color := Color.magenta, closeStreams := some 0 } := by
  constructor
  · decide
  · decide

/-- C10 witness: reusing a matching entry that is already streaming
returns success and leaves the state unchanged apart from the ghost
record of the remote spawn call. -/
theorem C10_reuse_success_frame_witness :
    spawnBackend
      { account := "acct", service := "svc", currentImageId := some "img",
        devBackends := [("b",
          { spawnResult := { name := "b", spawned := true }, imageId := "img",
            spawnTime := 1, lastStatus := some "Ready", lock := some "k",
            isStreaming := true, color := Color.magenta, closeStreams := some 0 })],
        totalBackendsSpawned := 1, streams := [{ backendName := "b", closed := false }],
        remoteCalls := [] }
      { name := "b", spawned := false } none 7 =
    .ok ({ account := "acct", service := "svc", currentImageId := some "img",
           devBackends := [("b",
             { spawnResult := { name := "b", spawned := true }, imageId := "img",
               spawnTime := 1, lastStatus := some "Ready", lock := some "k",
               isStreaming := true, color := Color.magenta, closeStreams := some 0 })],
           totalBackendsSpawned := 1, streams := [{ backendName := "b", closed := false }],
           remoteCalls := [RemoteCall.spawn "svc"] },
      .success { name := "b", spawned := false }) := by
  have h := (C10_reuse_success_frame_amended
    { account := "acct", service := "svc", currentImageId := some "img",
      devBackends := [("b",
        { spawnResult := { name := "b", spawned := true }, imageId := "img",
          spawnTime := 1, lastStatus := some "Ready", lock := some "k",
          isStreaming := true, color := Color.magenta, closeStreams := some 0 })],
      totalBackendsSpawned := 1, streams := [{ backendName := "b", closed := false }],
      remoteCalls := [] }
    { name := "b", spawned := false } none 7 "img"
    { spawnResult := { name := "b", spawned := true }, imageId := "img",
      spawnTime := 1, lastStatus := some "Ready", lock := some "k",
      isStreaming := true, color := Color.magenta, closeStreams := some 0 }
    rfl (by decide) rfl rfl).1 rfl
  simpa using h

/-- C5: a rebuild issues remote terminate calls for exactly the Registry
entries whose `imageId` differs from the new current image (in Registry
order), and leaves the Registry itself unchanged — in particular every
entry matching the new image is still present, identical (same
`lastStatus`, same `spawnTime`). -/
theorem C5_rebuild_scoping (st : DevServerState) (newImageId : String) :
    (rebuild st newImageId).devBackends = st.devBackends
    ∧ (rebuild st newImageId).remoteCalls =
        st.remoteCalls ++ RemoteCall.push newImageId ::
          ((st.devBackends.filter fun p => p.2.imageId != newImageId).map
            fun p => RemoteCall.terminate p.2.spawnResult.name)
    ∧ ∀ p ∈ st.devBackends, p.2.imageId = newImageId →
        p ∈ (rebuild st newImageId).devBackends := by
  unfold rebuild terminateBackends
  dsimp only
  refine ⟨?_, ?_, ?_⟩
  · split <;> rfl
  · split
    · rw [List.map_map, List.append_assoc]
      rfl
    · rename_i hlen
      have h0 : ((st.devBackends.filter fun p => p.2.imageId != newImageId).map
          fun p => p.2.spawnResult.name) = [] :=
        List.length_eq_zero.mp (Nat.eq_zero_of_not_pos hlen)
      have h1 : st.devBackends.filter (fun p => p.2.imageId != newImageId) = [] :=
        List.map_eq_nil.mp h0
      rw [h1]
      simp
  · intro p hp himg
    split <;> exact hp

/-- C7: `terminateBackends` issues one remote terminate call per named
backend, in order, and changes nothing else: the Registry contents, the
stream ledger, the current image and the spawn counter are all left
untouched. -/
theorem C7_terminate_frame (st : DevServerState) (backends : List String) :
    (terminateBackends st backends).devBackends = st.devBackends
    ∧ (terminateBackends st backends).streams = st.streams
    ∧ (terminateBackends st backends).currentImageId = st.currentImageId
    ∧ (terminateBackends st backends).totalBackendsSpawned = st.totalBackendsSpawned
    ∧ (terminateBackends st backends).remoteCalls =
        st.remoteCalls ++ backends.map RemoteCall.terminate :=
  ⟨rfl, rfl, rfl, rfl, rfl⟩

/-- Match a literal character sequence at the head of the input,
returning the rest (one regex literal such as `\/user\/`). -/
def dropLit : List Char → List Char → Option (List Char)
  | [], input => some input
  | _ :: _, [] => none
  | a :: as, c :: cs => if a = c then dropLit as cs else none

/-- Longest run of non-`'/'` characters at the head of the input (the
regex piece `[^/]+`, which can never extend across a slash), plus the
rest. -/
def takeSeg : List Char → List Char × List Char
  | [] => ([], [])
  | c :: cs =>
    if c = '/' then ([], c :: cs)
    else
      let r := takeSeg cs
      (c :: r.1, r.2)

/-- The route regex of `startSpawnProxy` (create.ts line 273):
`/^\/user\/([^/]+)\/service\/([^/]+)\/spawn/.exec(req.url ?? '')`.
The regex is anchored at the start but **not** at the end, so it is a
prefix match; on success it yields the account and service segments. -/
def parseSpawnRoute (url : String) : Option (String × String) :=
  match dropLit "/user/".toList url.toList with
  | none => none
  | some r1 =>
    let s1 := takeSeg r1
    if s1.1.isEmpty then none
    else
      match dropLit "/service/".toList s1.2 with
      | none => none
      | some r2 =>
        let s2 := takeSeg r2
        if s2.1.isEmpty then none
        else
          match dropLit "/spawn".toList s2.2 with
          | none => none
          | some _ => some (String.mk s1.1, String.mk s2.1)

/-- Which early response the Spawn Proxy's request handler picks
(create.ts lines 272-298): 404 for a non-POST or a URL the route regex
does not match, 401 for a service mismatch then for an account mismatch,
otherwise fall through to the spawn path. -/
inductive RouteDecision
  | notFound
  | unauthorized
  | forward (reqAccount reqService : String)
  deriving Repr, DecidableEq

/-- The route/identity checks of the Spawn Proxy handler (create.ts
lines 273-298). -/
def routeRequest (account service method url : String) : RouteDecision :=
  if method ≠ "POST" then .notFound
  else
    match parseSpawnRoute url with
    | none => .notFound
    | some (reqAccount, reqService) =>
      if service ≠ reqService then .unauthorized
      else if account ≠ reqAccount then .unauthorized
      else .forward reqAccount reqService

/-- HTTP response of the Spawn Proxy handler: a status code, or `none`
when `spawnBackend` threw inside the handler (the promise rejects and no
response is written). -/
def handleRequest (st : DevServerState) (method url : String) (r : SpawnResult)
    (bodyLock : Option String) (now : Nat) : DevServerState × Option Nat :=
  match routeRequest st.account st.service method url with
  | .notFound => (st, some 404)
  | .unauthorized => (st, some 401)
  | .forward _ _ =>
    match spawnBackend st r bodyLock now with
    | .error _ => (st, none)
    | .ok (st', .blocked _) => (st', some 400)
    | .ok (st', .success _) => (st', some 200)

/-- Modelled from the claim's wording: the URL is *exactly* the route
`/user/{account}/service/{service}/spawn` — the same pattern as
`parseSpawnRoute` but with nothing allowed after `/spawn`.  Used only to
state the C6 counterexample. -/
def exactSpawnRoute (url : String) : Bool :=
  match dropLit "/user/".toList url.toList with
  | none => false
  | some r1 =>
    let s1 := takeSeg r1
    if s1.1.isEmpty then false
    else
      match dropLit "/service/".toList s1.2 with
      | none => false
      | some r2 =>
        let s2 := takeSeg r2
        if s2.1.isEmpty then false
        else
          match dropLit "/spawn".toList s2.2 with
          | none => false
          | some rest => rest.isEmpty

/-- C6 (amended): the Spawn Proxy returns 404 exactly for a non-POST or
a URL the route pattern does not match — but the pattern is a *prefix*
match (`^\/user\/([^/]+)\/service\/([^/]+)\/spawn` has no end anchor), so
a POST whose URL merely begins with the spawn route is not rejected with
404.  A POST matching the pattern whose service or account segment
differs from the session's receives 401, the state is unchanged and no
remote spawn call is made. -/
theorem C6_route_guarding_amended (st : DevServerState) (method url : String)
    (r : SpawnResult) (bodyLock : Option String) (now : Nat) :
    (routeRequest st.account st.service method url = .notFound ↔
      (method ≠ "POST" ∨ parseSpawnRoute url = none))
    ∧ (∀ reqAccount reqService,
        method = "POST" →
        parseSpawnRoute url = some (reqAccount, reqService) →
        (reqService ≠ st.service ∨ reqAccount ≠ st.account) →
        handleRequest st method url r bodyLock now = (st, some 401)) := by
  constructor
  · by_cases hm : method = "POST"
    · cases hp : parseSpawnRoute url with
      | none => simp [routeRequest, hm, hp]
      | some pr =>
        cases pr with
        | mk ra rs =>
          by_cases h1 : st.service = rs
          · by_cases h2 : st.account = ra
            · simp [routeRequest, hm, hp, h1, h2]
            · simp [routeRequest, hm, hp, h1, h2]
          · simp [routeRequest, hm, hp, h1]
    · simp [routeRequest, hm]
  · intro reqAccount reqService hm hp hmis
    unfold handleRequest
    have hdec : routeRequest st.account st.service method url = .unauthorized := by
      rcases hmis with h | h
      · simp [routeRequest, hm, hp, Ne.symm h]
      · by_cases h1 : st.service ≠ reqService
        · simp [routeRequest, hm, hp, h1]
        · simp [routeRequest, hm, hp, h1, Ne.symm h]
    rw [hdec]

/-- C6 counterexample: a POST to
`/user/acct/service/svc/spawn/extra` is not the exact spawn route, yet
the handler does not return 404 — the prefix-matching regex accepts it
and (the segments matching the session) it is forwarded to the spawn
path. -/
theorem C6_route_guarding_cex :
    exactSpawnRoute "/user/acct/service/svc/spawn/extra" = false
    ∧ routeRequest "acct" "svc" "POST" "/user/acct/service/svc/spawn/extra" =
        RouteDecision.forward "acct" "svc"
    ∧ routeRequest "acct" "svc" "POST" "/user/acct/service/svc/spawn/extra" ≠
        RouteDecision.notFound := by
  refine ⟨?_, ?_, ?_⟩
  · decide
  · decide
  · decide

/-- C6 witness: a POST to the spawn route with a mismatched account
receives 401, with the session state (and hence the remote-call ledger)
unchanged — no spawn call is performed. -/
theorem C6_route_guarding_witness :
    handleRequest
      { account := "acct", service := "svc", currentImageId := some "img",
        devBackends := [], totalBackendsSpawned := 0, streams := [], remoteCalls := [] }
      "POST" "/user/other/service/svc/spawn" { name := "b", spawned := true } none 0 =
      ({ account := "acct", service := "svc", currentImageId := some "img",
         devBackends := [], totalBackendsSpawned := 0, streams := [], remoteCalls := [] },
        some 401) :=
  (C6_route_guarding_amended
    { account := "acct", service := "svc", currentImageId := some "img",
      devBackends := [], totalBackendsSpawned := 0, streams := [], remoteCalls := [] }
    "POST" "/user/other/service/svc/spawn" { name := "b", spawned := true } none 0).2
    "other" "svc" rfl (by decide) (Or.inr (by decide))

/-- State visible to the `streamStatus`/`streamLogs` callbacks of one
`streamStatusAndLogs` attachment (create.ts lines 243-256): the closure
captures the `backend` object itself, so it keeps acting on that object
even after the entry was deleted from `devBackends`.  `registryHasEntry`
records whether the name still maps to this object; `closerCalls` counts
how many times `backend.closeStreams` has been invoked by the callback. -/
structure CallbackState where
  captured : Backend
  registryHasEntry : Bool
  closerCalls : Nat
  deriving Repr, DecidableEq

/-- One event delivered on the attached status or log stream. -/
inductive StreamEvent
  | statusUpdate (state : String)
  | logEvent (line : String)
  deriving Repr, DecidableEq

/-- The status-stream callback body (create.ts lines 243-253), acting on
the captured object: always records `lastStatus`; on a status outside
`nonTerminalStatuses` it invokes `backend.closeStreams` whenever that
field is non-null (it is never reset to null, so a repeated terminal
status invokes it again) and deletes the Registry entry (idempotent). -/
def statusCallback (cs : CallbackState) (status : String) : CallbackState :=
  let b := { cs.captured with lastStatus := some status }
  if nonTerminalStatuses.contains status then
    { cs with captured := b }
  else
    { captured := b
      registryHasEntry := false
      closerCalls := cs.closerCalls + if b.closeStreams.isSome then 1 else 0 }

/-- Dispatch one stream event: the log callback (create.ts lines 254-256)
only prints and never touches the Registry or the closer. -/
def streamEventStep (cs : CallbackState) (e : StreamEvent) : CallbackState :=
  match e with
  | .statusUpdate status => statusCallback cs status
  | .logEvent _ => cs

/-- Run the callbacks over a sequence of delivered stream events. -/
def runStreamEvents (cs : CallbackState) (evs : List StreamEvent) : CallbackState :=
  evs.foldl streamEventStep cs

/-- A status event outside {Loading, Starting, Ready}. -/
def isTerminalEvent : StreamEvent → Bool
  | .statusUpdate status => !nonTerminalStatuses.contains status
  | .logEvent _ => false

theorem streamEventStep_closeStreams (cs : CallbackState) (e : StreamEvent) :
    (streamEventStep cs e).captured.closeStreams = cs.captured.closeStreams := by
  cases e with
  | statusUpdate status =>
    unfold streamEventStep statusCallback
    dsimp only
    split <;> rfl
  | logEvent l => rfl

/-- C4 (amended): for a backend whose callbacks hold a non-null closer,
processing any event sequence deletes the Registry entry as soon as a
terminal status arrives and never restores it, log events and
non-terminal statuses after the deletion are ignored without error — but
the closer is invoked once per terminal status received, not exactly
once: each further terminal status invokes it again, because
`closeStreams` is never cleared. -/
theorem C4_terminal_cleanup_amended (cs : CallbackState) (evs : List StreamEvent)
    (hc : cs.captured.closeStreams.isSome = true) :
    (runStreamEvents cs evs).closerCalls =
      cs.closerCalls + (evs.filter isTerminalEvent).length
    ∧ (runStreamEvents cs evs).registryHasEntry =
        (cs.registryHasEntry && !evs.any isTerminalEvent) := by
  induction evs generalizing cs with
  | nil => simp [runStreamEvents]
  | cons e evs ih =>
    have hrw : runStreamEvents cs (e :: evs) = runStreamEvents (streamEventStep cs e) evs := rfl
    have hc' : (streamEventStep cs e).captured.closeStreams.isSome = true := by
      rw [streamEventStep_closeStreams]
      exact hc
    have h := ih (streamEventStep cs e) hc'
    rw [hrw, h.1, h.2]
    cases e with
    | logEvent l =>
      simp [streamEventStep, isTerminalEvent]
    | statusUpdate status =>
      by_cases hterm : status ∈ nonTerminalStatuses
      · simp [streamEventStep, statusCallback, isTerminalEvent, hterm]
      · simp [streamEventStep, statusCallback, isTerminalEvent, hterm, hc]
        omega

/-- C4 counterexample: with an attached backend (closer installed, entry
present), delivering the terminal status "Terminated" and then a second
terminal status "Swept" invokes the stream closer twice — refuting
"invoked exactly once ... any further status or log events arriving for
that backend afterward are ignored".  (Both events are terminal, and the
entry is indeed removed.) -/
theorem C4_terminal_cleanup_cex :
    (runStreamEvents
      { captured := { spawnResult := { name := "b", spawned := true }, imageId := "img",
                      spawnTime := 0, lastStatus := some "Ready", lock := none,
                      isStreaming := true, color := Color.cyan, closeStreams := some 0 },
        registryHasEntry := true, closerCalls := 0 }
      [.statusUpdate "Terminated", .statusUpdate "Swept"]).closerCalls = 2
    ∧ ¬(2 : Nat) = 1
    ∧ isTerminalEvent (.statusUpdate "Terminated") = true
    ∧ isTerminalEvent (.statusUpdate "Swept") = true
    ∧ (runStreamEvents
        { captured := { spawnResult := { name := "b", spawned := true }, imageId := "img",
                        spawnTime := 0, lastStatus := some "Ready", lock := none,
                        isStreaming := true, color := Color.cyan, closeStreams := some 0 },
          registryHasEntry := true, closerCalls := 0 }
        [.statusUpdate "Terminated", .statusUpdate "Swept"]).registryHasEntry = false := by
  refine ⟨?_, ?_, ?_, ?_, ?_⟩ <;> decide

/-- C4 witness: a log line, one terminal status, then another log line:
the closer fires exactly once and the entry is removed; the trailing log
event is processed without error and without restoring the entry. -/
theorem C4_terminal_cleanup_witness :
    (runStreamEvents
      { captured := { spawnResult := { name := "b", spawned := true }, imageId := "img",
                      spawnTime := 0, lastStatus := some "Ready", lock := none,
                      isStreaming := true, color := Color.cyan, closeStreams := some 0 },
        registryHasEntry := true, closerCalls := 0 }
      [.logEvent "x", .statusUpdate "Terminated", .logEvent "y"]).closerCalls = 1
    ∧ (runStreamEvents
        { captured := { spawnResult := { name := "b", spawned := true }, imageId := "img",
                        spawnTime := 0, lastStatus := some "Ready", lock := none,
                        isStreaming := true, color := Color.cyan, closeStreams := some 0 },
          registryHasEntry := true, closerCalls := 0 }
        [.logEvent "x", .statusUpdate "Terminated", .logEvent "y"]).registryHasEntry = false := by
  have h := C4_terminal_cleanup_amended
    { captured := { spawnResult := { name := "b", spawned := true }, imageId := "img",
                    spawnTime := 0, lastStatus := some "Ready", lock := none,
                    isStreaming := true, color := Color.cyan, closeStreams := some 0 },
      registryHasEntry := true, closerCalls := 0 }
    [.logEvent "x", .statusUpdate "Terminated", .logEvent "y"] rfl
  exact ⟨by rw [h.1]; decide, by rw [h.2]; decide⟩

/-- C5 witness: at a concrete two-entry Registry the rebuild leaves the
Registry unchanged (the instantiation of the C5 frame theorem). -/
theorem C5_rebuild_scoping_witness :
    (rebuild
      { account := "acct", service := "svc", currentImageId := some "imgA",
        devBackends := [("b1",
          { spawnResult := { name := "b1", spawned := true }, imageId := "imgA",
            spawnTime := 0, lastStatus := some "Ready", lock := none,
            isStreaming := true, color := Color.cyan, closeStreams := some 0 }),
          ("b2",
          { spawnResult := { name := "b2", spawned := true }, imageId := "imgB",
            spawnTime := 1, lastStatus := some "Ready", lock := none,
            isStreaming := true, color := Color.magenta, closeStreams := some 1 })],
        totalBackendsSpawned := 2,
        streams := [{ backendName := "b1", closed := false },
                    { backendName := "b2", closed := false }],
        remoteCalls := [] } "imgB").devBackends =
      ({ account := "acct", service := "svc", currentImageId := some "imgA",
         devBackends := [("b1",
           { spawnResult := { name := "b1", spawned := true }, imageId := "imgA",
             spawnTime := 0, lastStatus := some "Ready", lock := none,
             isStreaming := true, color := Color.cyan, closeStreams := some 0 }),
           ("b2",
           { spawnResult := { name := "b2", spawned := true }, imageId := "imgB",
             spawnTime := 1, lastStatus := some "Ready", lock := none,
             isStreaming := true, color := Color.magenta, closeStreams := some 1 })],
         totalBackendsSpawned := 2,
         streams := [{ backendName := "b1", closed := false },
                     { backendName := "b2", closed := false }],
         remoteCalls := [] } : DevServerState).devBackends :=
  (C5_rebuild_scoping
    { account := "acct", service := "svc", currentImageId := some "imgA",
      devBackends := [("b1",
        { spawnResult := { name := "b1", spawned := true }, imageId := "imgA",
          spawnTime := 0, lastStatus := some "Ready", lock := none,
          isStreaming := true, color := Color.cyan, closeStreams := some 0 }),
        ("b2",
        { spawnResult := { name := "b2", spawned := true }, imageId := "imgB",
          spawnTime := 1, lastStatus := some "Ready", lock := none,
          isStreaming := true, color := Color.magenta, closeStreams := some 1 })],
      totalBackendsSpawned := 2,
      streams := [{ backendName := "b1", closed := false },
                  { backendName := "b2", closed := false }],
      remoteCalls := [] } "imgB").1
